import Mathlib

/-!
Shallow embedding of the rst_to_md translator (rst_to_md/translator.py).

The translator walks a parsed document tree and accumulates Markdown text
through a stack of `Context` values, each holding three ordered fragment
sequences (head/body/foot).  Specialized contexts override `finalize` to
rewrite their body when popped.  Python strings are modelled as Lean
`String`; Python `str.replace` (non-overlapping, left-to-right) is
implemented by `pyReplace`; Python lists of fragments are `List String`.
Mutation of the context stack is modelled by explicit state passing; the
in-place nature of `Context.__add__` is modelled separately on an indexed
store (`addCtx`).  Fallible operations (Python `IndexError` in
`pop_context`) return `Option`.
-/

set_option maxRecDepth 4000
set_option maxHeartbeats 1000000

/-- Python `str.replace` worker on character lists: scan left to right,
replacing non-overlapping occurrences of `pat` by `repl`.  `fuel` is an
upper bound on the number of steps (each step consumes at least one
character, so `s.length` suffices); structural recursion on `fuel` keeps
the definition kernel-reducible. -/
def replaceCharsAux (pat repl : List Char) : Nat → List Char → List Char
  | 0, s => s
  | fuel + 1, s =>
    match s with
    | [] => []
    | c :: rest =>
      if !pat.isEmpty && pat.isPrefixOf s then
        repl ++ replaceCharsAux pat repl fuel (s.drop pat.length)
      else
        c :: replaceCharsAux pat repl fuel rest

/-- Python `s.replace(pat, repl)` for non-empty `pat`. -/
def pyReplace (s pat repl : String) : String :=
  ⟨replaceCharsAux pat.toList repl.toList s.toList.length s.toList⟩

/-- Python `s.startswith(pre)`. -/
def pyStartsWith (s pre : String) : Bool :=
  pre.toList.isPrefixOf s.toList

/-- Python `''.join(fragments)`. -/
def joinl : List String → String
  | [] => ""
  | s :: rest => s ++ joinl rest

/-- Python `s.strip()` (strip leading and trailing whitespace). -/
def pyStrip (s : String) : String :=
  ⟨((s.toList.dropWhile Char.isWhitespace).reverse.dropWhile Char.isWhitespace).reverse⟩

/-- `Translator.deunicode`: replace the non-breaking space by a space and
the dagger by its escape form. -/
def deunicode (text : String) : String :=
  pyReplace (pyReplace text "\u00A0" " ") "\u2020" "\\(dg"

/-- Python `n * '#'`. -/
def hashMarks (n : Nat) : String :=
  ⟨List.replicate n '#'⟩

/-- Which `Context` subclass a stack entry belongs to; `literalBlock`
carries the language picked at `visit_literal_block` time. -/
inductive CtxKind where
  | plain : CtxKind
  | literalBlock : String → CtxKind
  | quote : CtxKind
  | listItem : CtxKind
  | mathBlock : CtxKind
deriving DecidableEq, Repr

/-- `Context`: three ordered fragment sequences plus the subclass tag. -/
structure Context where
  kind : CtxKind := CtxKind.plain
  head : List String := []
  body : List String := []
  foot : List String := []
deriving DecidableEq, Repr

def Context.put_head (c : Context) (text : String) : Context :=
  { c with head := c.head ++ [text] }

def Context.put_body (c : Context) (text : String) : Context :=
  { c with body := c.body ++ [text] }

def Context.put_foot (c : Context) (text : String) : Context :=
  { c with foot := c.foot ++ [text] }

/-- Value-level effect of `Context.__add__`: concatenate the other
context's head/body/foot onto this one's, region by region. -/
def Context.add (self other : Context) : Context :=
  { self with
      head := self.head ++ other.head
      body := self.body ++ other.body
      foot := self.foot ++ other.foot }

/-- `Context.astext`: concatenation of head + body + foot. -/
def Context.astext (c : Context) : String :=
  joinl (c.head ++ c.body ++ c.foot)

/-- `LiteralContext.finalize` (inside `visit_literal_block`): possibly
switch the `python` tag to `pycon` when the first fragment starts with the
interactive prompt, then wrap the body in a fenced block. -/
def literalFinalize (language : String) (body : List String) : List String :=
  let lang :=
    match body with
    | [] => language
    | b0 :: _ => if pyStartsWith b0 ">>>" && language == "python" then "pycon" else language
  ("```" ++ lang ++ "\n") :: (body ++ ["\n```\n\n"])

/-- `QuoteContext.finalize` (inside `visit_block_quote`). -/
def quoteFinalize (body : List String) : List String :=
  let quoted := (body.take 1).map (fun line => "> " ++ line) ++ body.drop 1
  quoted.dropLast.map (fun line => pyReplace line "\n" "\n> ") ++
    quoted.drop (quoted.length - 1)

/-- `fix_crs` (inside `visit_list_item`). -/
def fix_crs (text : String) : String :=
  pyReplace (pyReplace text "\n" "\n  ") "\n  \n" "\n\n"

/-- `ListItemContext.finalize` (inside `visit_list_item`). -/
def listItemFinalize (body : List String) : List String :=
  (body.take 1).map (fun l => "- " ++ fix_crs l) ++
    ((body.drop 1).dropLast).map fix_crs ++
    body.drop (body.length - 1)

/-- `MathContext.finalize` (inside `visit_math_block`). -/
def mathFinalize (body : List String) : List String :=
  "$$\n" :: (body.map pyStrip ++ ["\n$$\n\n"])

/-- Dispatch of `finalize` over the context subclasses; the base class
`finalize` is a no-op. -/
def Context.finalize (c : Context) : Context :=
  match c.kind with
  | CtxKind.plain => c
  | CtxKind.literalBlock language => { c with body := literalFinalize language c.body }
  | CtxKind.quote => { c with body := quoteFinalize c.body }
  | CtxKind.listItem => { c with body := listItemFinalize c.body }
  | CtxKind.mathBlock => { c with body := mathFinalize c.body }

/-- `Translator.push_context`: the stack grows at the end (Python list,
top at index -1). -/
def push_context (st : List Context) (ctx : Context) : List Context :=
  st ++ [ctx]

/-- `Translator.pop_context`: read the top, finalize it, drop it, and fold
it into the new top with `+=`.  Python raises `IndexError` when an
indexing step has no element to address; those branches return `none`. -/
def pop_context (st : List Context) : Option (List Context) :=
  match st.getLast? with
  | none => none
  | some top =>
    let rest := st.dropLast
    match rest.getLast? with
    | none => none
    | some parent => some (rest.dropLast ++ [parent.add top.finalize])

/-- `Translator._docinfo`. -/
structure Docinfo where
  title : String := ""
  subtitle : String := ""
  author : List String := []
  date : String := ""
  copyright : String := ""
  version : String := ""
deriving DecidableEq, Repr

/-- Per-document translator state: the context stack (seeded with one
plain context), the section depth counter, and the docinfo record.  The
settings / language objects of `__init__` carry no behavior used by the
translation itself and are omitted. -/
structure Translator where
  context : List Context := [{}]
  section_level : Nat := 0
  docinfo : Docinfo := {}
deriving DecidableEq, Repr

/-- Apply `f` to `self.output`, i.e. the current top of stack
(`self._context[-1]`); Python mutates it in place. -/
def modifyOutput (st : List Context) (f : Context → Context) : List Context :=
  match st.getLast? with
  | none => st
  | some top => st.dropLast ++ [f top]

/-- `Translator.astext`: flatten the current top of stack. -/
def Translator.astext (t : Translator) : String :=
  match t.context.getLast? with
  | none => ""
  | some top => top.astext

/-- `Translator.visit_title`; `text` is `node.astext()`.  The returned
`Bool` records that `nodes.SkipNode` was raised (descendants skipped). -/
def visit_title (t : Translator) (text : String) : Translator × Bool :=
  if t.section_level = 0 then
    ({ t with
        context := modifyOutput t.context (fun c => c.put_head ("# " ++ text ++ "\n"))
        docinfo := { t.docinfo with title := text } }, true)
  else
    ({ t with
        context := modifyOutput t.context (fun c =>
          c.put_body (hashMarks (t.section_level + 1) ++ " " ++ deunicode text ++ "\n")) },
      true)

/-- `Translator.visit_section`. -/
def visit_section (t : Translator) : Translator :=
  { t with section_level := t.section_level + 1 }

/-- `Translator.depart_section`. -/
def depart_section (t : Translator) : Translator :=
  { t with section_level := t.section_level - 1 }

/-- Language scan of `visit_literal_block`: the first classifier that is
not a generic `code` / `code-block` marker, else `python`. -/
def pickLanguage (classes : List String) : String :=
  match classes.find? (fun class_name => !(class_name == "code" || class_name == "code-block")) with
  | some class_name => class_name
  | none => "python"

/-- `Translator.visit_literal_block`; `classes` is
`node.attributes['classes']`. -/
def visit_literal_block (t : Translator) (classes : List String) : Translator :=
  { t with context := push_context t.context { kind := CtxKind.literalBlock (pickLanguage classes) } }

/-- `Translator.visit_block_quote`. -/
def visit_block_quote (t : Translator) : Translator :=
  { t with context := push_context t.context { kind := CtxKind.quote } }

/-- `Translator.visit_list_item`. -/
def visit_list_item (t : Translator) : Translator :=
  { t with context := push_context t.context { kind := CtxKind.listItem } }

/-- `visit_unsupported` (module level): takes the process-wide `_warned`
set, returns the updated set, whether the warning was emitted, and whether
`nodes.SkipNode` was raised. -/
def visit_unsupported (warned : List String) (node_type : String) : List String × Bool × Bool :=
  if node_type ∈ warned then (warned, false, true)
  else (node_type :: warned, true, true)

/-- Number of warnings emitted for kind `k` while visiting the nodes of
`kinds` in order, starting from warned-set `warned`. -/
def warningsFor (warned : List String) (kinds : List String) (k : String) : Nat :=
  match kinds with
  | [] => 0
  | k0 :: ks =>
    let r := visit_unsupported warned k0
    (if (k0 == k) && r.2.1 then 1 else 0) + warningsFor r.1 ks k

/-- The elements of the `rst_elements` tuple, exactly as Python evaluates
it: the source writes a comma inside the string after `tbody`, so implicit
string concatenation makes `tbody,term` one single element. -/
def rst_elements : List String :=
  ["abbreviation", "acronym", "address", "admonition",
   "attention", "attribution", "author", "authors",
   "block_quote", "bullet_list",
   "caption", "caution", "citation", "citation_reference", "classifier",
   "colspec", "comment", "compound", "contact", "container",
   "copyright",
   "danger", "date", "decoration", "definition", "definition_list",
   "definition_list_item", "description", "docinfo", "doctest_block",
   "document",
   "emphasis", "entry", "enumerated_list", "error",
   "field", "field_body", "field_list", "field_name", "figure", "footer",
   "footnote", "footnote_reference",
   "generated",
   "header", "hint",
   "image", "important", "inline",
   "label", "legend", "line", "line_block", "list_item", "literal",
   "literal_block",
   "math", "math_block",
   "note",
   "option", "option_argument", "option_group", "option_list",
   "option_list_item", "option_string", "organization",
   "paragraph", "pending", "problematic",
   "raw", "reference", "revision", "row", "rubric",
   "section", "sidebar", "status", "strong", "subscript",
   "substitution_definition", "substitution_reference", "subtitle",
   "superscript", "system_message",
   "table", "target", "tbody,term", "tgroup", "thead", "tip", "title",
   "title_reference", "topic", "transition",
   "version",
   "warning"]

/-- The node kinds `X` for which the `Translator` class defines an
explicit `visit_X` method. -/
def explicitVisitHooks : List String :=
  ["literal_block", "literal", "inline", "block_quote", "Text", "comment",
   "docinfo_item", "document", "emphasis", "paragraph", "problematic",
   "section", "strong", "subscript", "subtitle", "superscript",
   "system_message", "title", "transition", "bullet_list",
   "enumerated_list", "list_item", "reference", "target", "math",
   "math_block"]

/-- After the module-level binding loop, `Translator` has a `visit_` hook
for a kind exactly when the class defines one explicitly or the kind is an
element of `rst_elements` (those receive `visit_unsupported`). -/
def hasVisitHook (k : String) : Bool :=
  explicitVisitHooks.contains k || rst_elements.contains k

/-- Store-level model of `Context.__add__`, which mutates its left operand
in place and returns it: the store is a list of context objects, `i` and
`j` are the references of `self` and `other`, and the returned reference
is that of the result object. -/
def addCtx (store : List Context) (i j : Nat) : List Context × Nat :=
  match store[i]?, store[j]? with
  | some p, some c => (store.set i (p.add c), i)
  | _, _ => (store, i)

/-! ## Helper lemmas -/

theorem isPrefixOf_append_self (a b : List Char) : a.isPrefixOf (a ++ b) = true := by
  induction a with
  | nil => simp [List.isPrefixOf]
  | cons x xs ih => simp [List.isPrefixOf, ih]

theorem pyStartsWith_append (a b : String) : pyStartsWith (a ++ b) a = true := by
  have h : (a ++ b).toList = a.toList ++ b.toList := String.data_append a b
  simp [pyStartsWith, h, isPrefixOf_append_self]

theorem modifyOutput_concat (init : List Context) (top : Context) (f : Context → Context) :
    modifyOutput (init ++ [top]) f = init ++ [f top] := by
  simp [modifyOutput, List.getLast?_concat, List.dropLast_concat]

theorem pop_context_concat (init : List Context) (p c : Context) :
    pop_context (init ++ [p, c]) = some (init ++ [p.add c.finalize]) := by
  have h : init ++ [p, c] = (init ++ [p]) ++ [c] := by simp
  rw [h]
  simp [pop_context, List.getLast?_concat, List.dropLast_concat]

theorem drop_len_sub_one {α : Type} (l : List α) (a : α) :
    (l ++ [a]).drop ((l ++ [a]).length - 1) = [a] := by
  have h : (l ++ [a]).length - 1 = l.length := by simp
  rw [h, List.drop_left]

theorem joinl_cons (a : String) (l : List String) : joinl (a :: l) = a ++ joinl l := rfl

theorem quoteFinalize_structure (b0 blast : String) (mid : List String) :
    quoteFinalize (b0 :: (mid ++ [blast])) =
      pyReplace ("> " ++ b0) "\n" "\n> " ::
        (mid.map (fun line => pyReplace line "\n" "\n> ") ++ [blast]) := by
  have h1 : (b0 :: (mid ++ [blast])).take 1 = [b0] := by simp
  have h2 : (b0 :: (mid ++ [blast])).drop 1 = mid ++ [blast] := by simp
  unfold quoteFinalize
  rw [h1, h2]
  have h3 : ("> " ++ b0) :: (mid ++ [blast]) = (("> " ++ b0) :: mid) ++ [blast] := by simp
  simp only [List.map_cons, List.map_nil, List.singleton_append, h3,
    List.dropLast_concat, drop_len_sub_one, List.map_append, List.map_cons]
  simp

theorem listItemFinalize_structure (b0 blast : String) (mid : List String) :
    listItemFinalize (b0 :: (mid ++ [blast])) =
      ("- " ++ fix_crs b0) :: (mid.map fix_crs ++ [blast]) := by
  unfold listItemFinalize
  have h3 : b0 :: (mid ++ [blast]) = (b0 :: mid) ++ [blast] := by simp
  rw [h3]
  simp only [List.take_append_of_le_length, List.dropLast_concat, drop_len_sub_one]
  simp [List.drop_append_of_le_length]

theorem pickLanguage_skip (x : String) (rest : List String)
    (hx : x = "code" ∨ x = "code-block") :
    pickLanguage (x :: rest) = pickLanguage rest := by
  rcases hx with h | h <;> subst h <;> simp [pickLanguage, List.find?]

theorem pickLanguage_first (c : String) (post : List String)
    (hc1 : c ≠ "code") (hc2 : c ≠ "code-block") :
    pickLanguage (c :: post) = c := by
  have b1 : (c == "code") = false := by simpa using hc1
  have b2 : (c == "code-block") = false := by simpa using hc2
  simp [pickLanguage, List.find?, b1, b2]

theorem pickLanguage_default (cls : List String)
    (h : ∀ x ∈ cls, x = "code" ∨ x = "code-block") :
    pickLanguage cls = "python" := by
  induction cls with
  | nil => rfl
  | cons x rest ih =>
    rw [pickLanguage_skip x rest (h x (by simp))]
    exact ih (fun y hy => h y (by simp [hy]))

theorem pickLanguage_found (pre : List String) (c : String) (post : List String)
    (hpre : ∀ x ∈ pre, x = "code" ∨ x = "code-block")
    (hc1 : c ≠ "code") (hc2 : c ≠ "code-block") :
    pickLanguage (pre ++ c :: post) = c := by
  induction pre with
  | nil => exact pickLanguage_first c post hc1 hc2
  | cons x rest ih =>
    rw [List.cons_append, pickLanguage_skip x _ (hpre x (by simp))]
    exact ih (fun y hy => hpre y (by simp [hy]))

theorem warningsFor_of_mem (ks : List String) (w : List String) (k : String)
    (h : k ∈ w) : warningsFor w ks k = 0 := by
  induction ks generalizing w with
  | nil => rfl
  | cons k0 ks ih =>
    by_cases hk : k0 ∈ w
    · simp [warningsFor, visit_unsupported, hk, ih w h]
    · have hne : (k0 == k) = false := by
        simp only [beq_eq_false_iff_ne]
        intro he; exact hk (he ▸ h)
      simp [warningsFor, visit_unsupported, hk, hne, ih (k0 :: w) (by simp [h])]

theorem warningsFor_count (ks : List String) (w : List String) (k : String) :
    warningsFor w ks k = if k ∈ ks ∧ k ∉ w then 1 else 0 := by
  induction ks generalizing w with
  | nil => simp [warningsFor]
  | cons k0 ks ih =>
    by_cases hk0 : k0 ∈ w
    · by_cases hkk : k0 = k
      · subst hkk
        simp [warningsFor, visit_unsupported, hk0, ih w, hk0]
      · have hne : (k0 == k) = false := by simpa using hkk
        simp only [warningsFor, visit_unsupported, if_pos hk0, hne, Bool.false_and,
          if_neg Bool.false_ne_true, Nat.zero_add, ih w]
        simp [List.mem_cons, Ne.symm hkk]
    · by_cases hkk : k0 = k
      · subst hkk
        have : warningsFor (k0 :: w) ks k0 = 0 := warningsFor_of_mem ks (k0 :: w) k0 (by simp)
        simp [warningsFor, visit_unsupported, hk0, this]
      · have hne : (k0 == k) = false := by simpa using hkk
        simp only [warningsFor, visit_unsupported, if_neg hk0, hne, Bool.false_and,
          if_neg Bool.false_ne_true, Nat.zero_add, ih (k0 :: w)]
        have hkne : k ≠ k0 := Ne.symm hkk
        by_cases hks : k ∈ ks <;> by_cases hkw : k ∈ w <;>
          simp [hks, hkw, hkne, List.mem_cons]

/-! ## Claim theorems -/

/-- Claim C1 (code bug evidence): the `rst_elements` tuple, as Python
evaluates it, contains the single element `tbody,term` (implicit string
concatenation of the adjacent literals), so the real node kinds `term`
and `tbody` are neither explicitly handled nor bound to
`visit_unsupported` by the module-level loop: the translator has no
`visit_` hook for them, contradicting the stated property that every
recognized kind either has explicit hooks or the default warn-and-skip
hook. -/
theorem c1_term_tbody_missing_hooks :
    hasVisitHook "term" = false ∧ hasVisitHook "tbody" = false ∧
    rst_elements.contains "tbody,term" = true ∧ hasVisitHook "tbody,term" = true := by
  decide

/-- Claim C2 (counterexample): popping a child context whose head region
holds the fragment `H` over an empty parent leaves the parent's body
empty — the child's head fragment goes to the parent's head, not to the
parent's body as the claim states. -/
theorem c2_counterexample_head_not_in_parent_body :
    pop_context [Context.mk CtxKind.plain [] [] [], Context.mk CtxKind.plain ["H"] [] []] =
      some [Context.mk CtxKind.plain ["H"] [] []] ∧
    "H" ∉ (Context.mk CtxKind.plain ["H"] [] []).body := by
  exact ⟨rfl, by decide⟩

/-- Claim C2 (amended): for every context popped from the stack, after its
finalize hook runs, its accumulated content is merged into the parent
region-wise — head fragments onto the parent's head, body fragments onto
the parent's body, foot fragments onto the parent's foot — and
`pop_context` replaces the two top stack entries by this single merged
parent. -/
theorem c2_merge_regionwise :
    ∀ (init : List Context) (p c : Context),
      ∃ merged : Context,
        pop_context (init ++ [p, c]) = some (init ++ [merged]) ∧
        merged.head = p.head ++ c.finalize.head ∧
        merged.body = p.body ++ c.finalize.body ∧
        merged.foot = p.foot ++ c.finalize.foot := by
  intro init p c
  exact ⟨p.add c.finalize, pop_context_concat init p c, rfl, rfl, rfl⟩

/-- Claim C3: visiting a title node at section depth 0 appends exactly one
level-1 heading line to the head region of the current output context
(body and foot untouched), records the flattened title text under the
docinfo `title` key, and raises the skip signal; consequently, when the
root context's head was empty, `astext` starts with that heading line. -/
theorem c3_document_title :
    (∀ (init : List Context) (top : Context) (di : Docinfo) (text : String),
      visit_title ⟨init ++ [top], 0, di⟩ text =
        (⟨init ++ [{ top with head := top.head ++ ["# " ++ text ++ "\n"] }], 0,
          { di with title := text }⟩, true)) ∧
    (∀ (root : Context) (di : Docinfo) (text : String), root.head = [] →
      pyStartsWith (Translator.astext (visit_title ⟨[root], 0, di⟩ text).1)
        ("# " ++ text ++ "\n") = true) := by
  constructor
  · intro init top di text
    simp [visit_title, modifyOutput_concat, Context.put_head]
  · intro root di text hhead
    simp [visit_title, modifyOutput, Context.put_head, Translator.astext, Context.astext, hhead,
      joinl_cons, pyStartsWith_append]

/-- Claim C3 witness: instantiation at a fresh translator and title `T`. -/
theorem c3_document_title_witness :
    pyStartsWith (Translator.astext (visit_title ⟨[{}], 0, {}⟩ "T").1)
      ("# " ++ "T" ++ "\n") = true :=
  c3_document_title.2 {} {} "T" rfl

/-- Claim C4: visiting a title node at section depth `d + 1 ≥ 1` appends
to the body of the current output context one heading line made of
`d + 2` hash markers, a space, and the flattened text normalized by
`deunicode`, and raises the skip signal; `deunicode` replaces the
non-breaking space (U+00A0) by a plain space and the dagger (U+2020) by
its escape form. -/
theorem c4_section_heading_depth :
    (∀ (init : List Context) (top : Context) (di : Docinfo) (text : String) (d : Nat),
      visit_title ⟨init ++ [top], d + 1, di⟩ text =
        (⟨init ++ [{ top with body := top.body ++
            [hashMarks (d + 2) ++ " " ++ deunicode text ++ "\n"] }], d + 1, di⟩, true)) ∧
    deunicode "a\u00A0b" = "a b" ∧
    deunicode "x\u2020" = "x\\(dg" := by
  refine ⟨?_, by decide, by decide⟩
  intro init top di text d
  simp [visit_title, modifyOutput_concat, Context.put_body]

/-- Claim C5: the literal-block language tag is the first classifier that
is not `code` / `code-block`, defaulting to `python`; on finalize a
`python`-tagged block whose first fragment starts with `>>>` switches to
`pycon`, and the body is wrapped in an opening fence carrying the
(possibly switched) tag and a closing fence followed by a blank line. -/
theorem c5_literal_block :
    (∀ (pre : List String) (c : String) (post : List String),
      (∀ x ∈ pre, x = "code" ∨ x = "code-block") → c ≠ "code" → c ≠ "code-block" →
      pickLanguage (pre ++ c :: post) = c) ∧
    (∀ cls : List String, (∀ x ∈ cls, x = "code" ∨ x = "code-block") →
      pickLanguage cls = "python") ∧
    (∀ (language b0 : String) (rest : List String),
      literalFinalize language (b0 :: rest) =
        ("```" ++ (if pyStartsWith b0 ">>>" && language == "python" then "pycon" else language)
            ++ "\n") :: ((b0 :: rest) ++ ["\n```\n\n"])) ∧
    literalFinalize "python" [">>> 1+1"] = ["```pycon\n", ">>> 1+1", "\n```\n\n"] ∧
    literalFinalize "python" ["1+1"] = ["```python\n", "1+1", "\n```\n\n"] := by
  refine ⟨pickLanguage_found, pickLanguage_default, fun language b0 rest => rfl,
    by decide, by decide⟩

/-- Claim C5 witness: instantiation of the hypotheses at concrete
classifier lists. -/
theorem c5_literal_block_witness :
    pickLanguage ["code", "ruby"] = "ruby" ∧
    pickLanguage ["code", "code-block"] = "python" :=
  ⟨c5_literal_block.1 ["code"] "ruby" [] (by decide) (by decide) (by decide),
   c5_literal_block.2.1 ["code", "code-block"] (by decide)⟩

/-- Claim C6: block-quote finalize prefixes the first body fragment with
`> `, rewrites every embedded newline of every fragment but the last to
continue the prefix, and leaves the last fragment untouched; on the
two-fragment body of a two-line paragraph this yields every content line
prefixed and the trailing blank line bare. -/
theorem c6_block_quote_prefixing :
    (∀ (b0 blast : String) (mid : List String),
      quoteFinalize (b0 :: (mid ++ [blast])) =
        pyReplace ("> " ++ b0) "\n" "\n> " ::
          (mid.map (fun line => pyReplace line "\n" "\n> ") ++ [blast])) ∧
    (∀ b : String, quoteFinalize [b] = ["> " ++ b]) ∧
    quoteFinalize ["a\nb", "\n\n"] = ["> a\n> b", "\n\n"] ∧
    joinl (quoteFinalize ["a\nb", "\n\n"]) = "> a\n> b\n\n" := by
  refine ⟨quoteFinalize_structure, fun b => rfl, by decide, by decide⟩

/-- Claim C7: list-item finalize prefixes the first body fragment with
`- ` after `fix_crs` re-indentation, applies `fix_crs` to the middle
fragments, and leaves the last fragment untouched; `fix_crs` indents
embedded newlines by two spaces and collapses a line left
whitespace-only by that indent back to a true blank line; the
single-paragraph item yields `- hello` plus a blank line with no
continuation indent. -/
theorem c7_list_item_reindent :
    (∀ (b0 blast : String) (mid : List String),
      listItemFinalize (b0 :: (mid ++ [blast])) =
        ("- " ++ fix_crs b0) :: (mid.map fix_crs ++ [blast])) ∧
    listItemFinalize ["hello", "\n\n"] = ["- hello", "\n\n"] ∧
    joinl (listItemFinalize ["hello", "\n\n"]) = "- hello\n\n" ∧
    fix_crs "a\nb" = "a\n  b" ∧
    fix_crs "a\n\nb" = "a\n\n  b" := by
  refine ⟨listItemFinalize_structure, by decide, by decide, by decide, by decide⟩

/-- Claim C8: every call of `visit_unsupported` raises the skip signal,
and across any sequence of unsupported-node visits started from any
warned set, the warning for a kind is emitted exactly once when the kind
occurs and was not already warned about, and never otherwise. -/
theorem c8_unsupported_warn_once :
    (∀ (warned : List String) (node_type : String),
      (visit_unsupported warned node_type).2.2 = true) ∧
    (∀ (w kinds : List String) (k : String),
      warningsFor w kinds k = if k ∈ kinds ∧ k ∉ w then 1 else 0) := by
  constructor
  · intro warned node_type
    by_cases h : node_type ∈ warned <;> simp [visit_unsupported, h]
  · intro w kinds k
    exact warningsFor_count kinds w k

/-- Claim C9: on a stack holding at least two contexts (any `init` below
the parent `p` and top `c`), `pop_context` succeeds, finalizes the top
exactly once, merges it into the parent, and shrinks the stack by exactly
one; on a one-element or empty stack the final indexing step has no
element to address and the operation fails. -/
theorem c9_pop_context_safety :
    (∀ (init : List Context) (p c : Context),
      pop_context (init ++ [p, c]) = some (init ++ [p.add c.finalize]) ∧
      (init ++ [p.add c.finalize]).length + 1 = (init ++ [p, c]).length) ∧
    (∀ c : Context, pop_context [c] = none) ∧
    pop_context ([] : List Context) = none := by
  refine ⟨fun init p c => ⟨pop_context_concat init p c, by simp⟩, fun c => rfl, rfl⟩

/-- Claim C10: the merge of `Context.__add__`, modelled on an indexed
store of context objects, is in-place on its left operand: it returns the
left operand's reference, overwrites that object with the region-wise
concatenation, leaves the right operand's object unchanged, and allocates
nothing. -/
theorem c10_add_inplace :
    ∀ (store : List Context) (i j : Nat) (p c : Context),
      i ≠ j → store[i]? = some p → store[j]? = some c →
      (addCtx store i j).2 = i ∧
      (addCtx store i j).1[i]? = some (p.add c) ∧
      (addCtx store i j).1[j]? = some c ∧
      (addCtx store i j).1.length = store.length := by
  intro store i j p c hij hi hj
  have hlen : i < store.length := (List.getElem?_eq_some.mp hi).1
  have heq : addCtx store i j = (store.set i (p.add c), i) := by
    unfold addCtx
    rw [hi, hj]
  rw [heq]
  refine ⟨rfl, ?_, ?_, by simp⟩
  · exact List.getElem?_set_self hlen
  · rw [List.getElem?_set_ne hij]
    exact hj

/-- Claim C10 witness: instantiation on a two-object store. -/
theorem c10_add_inplace_witness :
    (addCtx [Context.mk CtxKind.plain ["h"] ["b"] ["f"],
             Context.mk CtxKind.plain ["H"] ["B"] ["F"]] 0 1).2 = 0 ∧
    (addCtx [Context.mk CtxKind.plain ["h"] ["b"] ["f"],
             Context.mk CtxKind.plain ["H"] ["B"] ["F"]] 0 1).1[0]? =
      some (Context.add (Context.mk CtxKind.plain ["h"] ["b"] ["f"])
        (Context.mk CtxKind.plain ["H"] ["B"] ["F"])) ∧
    (addCtx [Context.mk CtxKind.plain ["h"] ["b"] ["f"],
             Context.mk CtxKind.plain ["H"] ["B"] ["F"]] 0 1).1[1]? =
      some (Context.mk CtxKind.plain ["H"] ["B"] ["F"]) ∧
    (addCtx [Context.mk CtxKind.plain ["h"] ["b"] ["f"],
             Context.mk CtxKind.plain ["H"] ["B"] ["F"]] 0 1).1.length =
      [Context.mk CtxKind.plain ["h"] ["b"] ["f"],
       Context.mk CtxKind.plain ["H"] ["B"] ["F"]].length :=
  c10_add_inplace
    [Context.mk CtxKind.plain ["h"] ["b"] ["f"], Context.mk CtxKind.plain ["H"] ["B"] ["F"]]
    0 1 (Context.mk CtxKind.plain ["h"] ["b"] ["f"]) (Context.mk CtxKind.plain ["H"] ["B"] ["F"])
    (by decide) rfl rfl
